import Mathlib

/-!
Verification of `connect-session-firestore` (src/lib/connect-session-firestore.js).

The adapter stores session records in a backend collection keyed by a
normalized session id.  We embed the adapter shallowly:

* a session payload (`Sess`) is opaque application data (`rest`) plus the one
  field the adapter inspects, an optional `cookie` whose `maxAge` is either a
  JS number, some non-number value, or absent;
* the backend collection (`Store`) is an association list of
  `(documentKey, Record)` pairs, with point read (`lookupStore`), upsert
  (`setDoc`), point delete (`deleteDoc`) and the `expires < now` range query
  (`reapQuery`) that the code uses;
* each facade operation (`FirestoreStore.get/set/destroy/touch/clear/reap`)
  is a pure state transformer `Store → Store × CbResult` mirroring the
  promise chain of the source line by line, with the backend succeeding;
* separately, `getTrace`/`setTrace`/… model the *callback-invocation*
  behaviour of the same promise chains for an arbitrary settling backend and
  an arbitrary (possibly throwing) completion callback, to settle the
  "exactly one completion signal" claim.
-/

namespace ConnectSessionFirestore

/-- Six hours in milliseconds (`reapInterval` constant, line 11 of the source);
also the default session lifetime used by `set` (line 124). -/
def reapInterval : Int := 21600000

/-- The `maxAge` property of a cookie object as the adapter sees it:
a JS number, present but of some non-number type, or absent.
(`typeof session.cookie.maxAge === 'number'`, line 124.) -/
inductive MaxAge where
  | num (n : Int)
  | notNum
  | absent
  deriving DecidableEq

/-- The cookie-shaped sub-object of a session payload; the adapter only ever
reads its `maxAge` property. -/
structure Cookie where
  maxAge : MaxAge
  deriving DecidableEq

/-- A session payload: the optional `cookie` property (none models an
absent/undefined/falsy `cookie`, line 124) plus the remaining own properties,
which the adapter treats as opaque (modelled as string-valued fields). -/
structure Sess where
  cookie : Option Cookie
  rest : List (String × String)
  deriving DecidableEq

/-- The persisted document shape built by `set` (lines 126-130):
`{ expires, session, type: 'connect-session' }`. -/
structure Record where
  expires : Int
  session : Sess
  type : String
  deriving DecidableEq

/-- The characters the normalizer replaces: `. $ # [ ] /`
(regex `/\.|\$|#|\[|\]|\//g`, line 57). -/
def forbiddenChar (c : Char) : Bool :=
  c == '.' || c == '$' || c == '#' || c == '[' || c == ']' || c == '/'

/-- `cleanRef` (lines 56-58): replace every occurrence of a forbidden
character with an underscore.  Single-character alternatives under the `g`
flag make `String.replace` a character-wise map. -/
def cleanRef (s : String) : String :=
  String.mk (s.data.map fun c => if forbiddenChar c then '_' else c)

/-- The backend collection: documents keyed by a reference string.
Firestore document ids are unique; the association list is the first-match
view of the collection. -/
abbrev Store := List (String × Record)

/-- Point read of a document (`collection.doc(key).get()`). -/
def lookupStore (st : Store) (k : String) : Option Record :=
  match st with
  | [] => none
  | (k₀, r) :: tl => if k₀ = k then some r else lookupStore tl k

/-- Point delete of a document (`collection.doc(key).delete()`), idempotent:
removes every binding of the key. -/
def deleteDoc (st : Store) (k : String) : Store :=
  match st with
  | [] => []
  | (k₀, r) :: tl => if k₀ = k then deleteDoc tl k else (k₀, r) :: deleteDoc tl k

/-- Point write / upsert of a document (`collection.doc(key).set(data)`). -/
def setDoc (st : Store) (k : String) (r : Record) : Store :=
  (k, r) :: deleteDoc st k

/-- The keys returned by the range query
`collection.where('expires', '<', now).get()` (lines 187-189). -/
def reapQuery (st : Store) (now : Int) : List String :=
  List.map Prod.fst (List.filter (fun e => decide (e.2.expires < now)) st)

/-- The expiry computed by `set` (line 124):
`session.cookie && typeof session.cookie.maxAge === 'number'
  ? now + session.cookie.maxAge : now + reapInterval`. -/
def computeExpires (now : Int) (session : Sess) : Int :=
  match session.cookie with
  | some c =>
    match c.maxAge with
    | MaxAge.num n => now + n
    | _ => now + reapInterval
  | none => now + reapInterval

/-- The declared-lifetime hint the adapter reads off a payload: `some n` iff
the payload has a cookie whose `maxAge` is the number `n`. -/
def maxAgeHint (s : Sess) : Option Int :=
  match s.cookie with
  | some c =>
    match c.maxAge with
    | MaxAge.num n => some n
    | _ => none
  | none => none

/-- The lifetime `set` actually applies: the numeric hint when present,
otherwise the 6-hour default. -/
def effectiveLifetime (s : Sess) : Int :=
  match maxAgeHint s with
  | some n => n
  | none => reapInterval

/-- What a facade operation delivers to its completion callback when the
backend succeeds: `empty` models `fn()` / `fn(undefined)` (absence, destroy,
write completion), `sess s` models `fn(null, session)`. -/
inductive CbResult where
  | empty
  | sess (s : Sess)
  deriving DecidableEq

namespace FirestoreStore

/-- `set` (lines 121-137): normalize the key, compute `expires`, upsert
`{ expires, session, type: 'connect-session' }`, signal completion. -/
def set (st : Store) (now : Int) (sid : String) (session : Sess) :
    Store × CbResult :=
  let key := cleanRef sid
  let expires := computeExpires now session
  let data : Record := { expires := expires, session := session, type := "connect-session" }
  (setDoc st key data, CbResult.empty)

/-- `destroy` (lines 145-153): normalize the key, delete the document,
signal completion. -/
def destroy (st : Store) (sid : String) : Store × CbResult :=
  let key := cleanRef sid
  (deleteDoc st key, CbResult.empty)

/-- `get` (lines 93-112): normalize the key, read the document; absent →
`fn()`; `expires < now` → `this.destroy(sid, fn)`; otherwise
`fn(null, snapshot.data().session)`. -/
def get (st : Store) (now : Int) (sid : String) : Store × CbResult :=
  let key := cleanRef sid
  match lookupStore st key with
  | none => (st, CbResult.empty)
  | some r =>
    if r.expires < now then destroy st sid
    else (st, CbResult.sess r.session)

/-- The merge `touch` performs (lines 223-227):
`Object.assign({}, snapshot.data().session, { cookie: session.cookie })`
keeps every stored field and overwrites `cookie` with the incoming one,
even when the incoming cookie is undefined. -/
def mergeTouched (stored : Sess) (incoming : Sess) : Sess :=
  { cookie := incoming.cookie, rest := stored.rest }

/-- `touch` (lines 212-232): normalize the key, read the document; absent →
`fn()` and no write; present → `this.set(sid, merged, fn)`. -/
def touch (st : Store) (now : Int) (sid : String) (session : Sess) :
    Store × CbResult :=
  let key := cleanRef sid
  match lookupStore st key with
  | none => (st, CbResult.empty)
  | some r => set st now sid (mergeTouched r.session session)

/-- `reap` (lines 184-202): query the documents with `expires < now`, delete
each of them, signal completion. -/
def reap (st : Store) (now : Int) : Store × CbResult :=
  (List.foldl deleteDoc st (reapQuery st now), CbResult.empty)

/-- `clear` (lines 161-176): scan the whole collection, delete every
document, signal completion. -/
def clear (st : Store) : Store × CbResult :=
  (List.foldl deleteDoc st (List.map Prod.fst st), CbResult.empty)

end FirestoreStore

/-!
Callback-invocation model.  Each facade operation wires its user callback
`fn` into a promise chain; to settle the "exactly one completion signal"
claim we model, per operation, the list of invocations `fn` receives as a
function of (a) the outcome of each backend request (which we assume
settles: `Except.ok` resolution or `Except.error` rejection) and (b) the
behaviour of `fn` itself, which may return normally or throw.
-/

/-- An error / rejection reason value. -/
abbrev Err := String

/-- The argument shape a callback invocation receives: no (or undefined)
first argument, a truthy error value, or `(null, session)`. -/
inductive CbArg where
  | empty
  | err (e : Err)
  | sess (s : Sess)
  deriving DecidableEq

/-- The behaviour of the user callback at each invocation: `none` means it
returns normally, `some e` means it throws `e`. -/
def CbBeh := CbArg → Option Err

/-- A callback that never throws. -/
def neverThrows : CbBeh := fun _ => none

/-- Invocations produced by the pattern `p.then(fn).catch(fn)` (used by
`destroy` lines 148-152 and `set` lines 132-136, and for the inner
`Promise.all` chains of `clear`/`reap`), given the settled outcome of `p`
and the success argument `fn` receives on resolution.  Also returns the
final state of the resulting promise: `some e` when it ends rejected
(i.e. `fn` threw inside the `.catch` handler), which matters when a caller
chains a further `.catch(fn)` on it (`get`'s expired branch, `touch`'s
found branch). -/
def thenCatchTrace (res : Except Err Unit) (arg : CbArg) (beh : CbBeh) :
    List CbArg × Option Err :=
  match res with
  | Except.ok _ =>
    match beh arg with
    | none => ([arg], none)
    | some e =>
      match beh (CbArg.err e) with
      | none => ([arg, CbArg.err e], none)
      | some e₂ => ([arg, CbArg.err e], some e₂)
  | Except.error e =>
    match beh (CbArg.err e) with
    | none => ([CbArg.err e], none)
    | some e₂ => ([CbArg.err e], some e₂)

/-- Callback invocations of `get` (lines 93-112), given the settled outcome
of the document read (`Except.ok none`: snapshot with `exists` false), the
settled outcome of the delete issued on the expired branch, the clock, and
the callback behaviour.  The expired branch returns `this.destroy(sid, fn)`
whose promise the outer `.catch(fn)` observes. -/
def getTrace (gres : Except Err (Option Record)) (dres : Except Err Unit)
    (now : Int) (beh : CbBeh) : List CbArg :=
  match gres with
  | Except.error e => [CbArg.err e]
  | Except.ok none =>
    match beh CbArg.empty with
    | none => [CbArg.empty]
    | some e => [CbArg.empty, CbArg.err e]
  | Except.ok (some r) =>
    if r.expires < now then
      match thenCatchTrace dres CbArg.empty beh with
      | (inv, none) => inv
      | (inv, some e) => inv ++ [CbArg.err e]
    else
      match beh (CbArg.sess r.session) with
      | none => [CbArg.sess r.session]
      | some e => [CbArg.sess r.session, CbArg.err e]

/-- Callback invocations of `set` (lines 132-136): `set(data).then(fn).catch(fn)`;
a rejection of the final chain is unhandled. -/
def setTrace (sres : Except Err Unit) (beh : CbBeh) : List CbArg :=
  (thenCatchTrace sres CbArg.empty beh).1

/-- Callback invocations of `destroy` (lines 148-152), same chain shape as `set`. -/
def destroyTrace (dres : Except Err Unit) (beh : CbBeh) : List CbArg :=
  (thenCatchTrace dres CbArg.empty beh).1

/-- Callback invocations of `clear` (lines 161-176), given the settled
outcome of the collection scan and of `Promise.all` over the deletes.  The
scan's `.then` handler does not return the inner chain, so the outer
`.catch(fn)` never observes it. -/
def clearTrace (scanRes : Except Err Unit) (allRes : Except Err Unit)
    (beh : CbBeh) : List CbArg :=
  match scanRes with
  | Except.error e => [CbArg.err e]
  | Except.ok _ => (thenCatchTrace allRes CbArg.empty beh).1

/-- Callback invocations of `reap` (lines 184-202), same chain shape as `clear`
with the scan replaced by the `expires < now` query. -/
def reapTrace (qres : Except Err Unit) (allRes : Except Err Unit)
    (beh : CbBeh) : List CbArg :=
  match qres with
  | Except.error e => [CbArg.err e]
  | Except.ok _ => (thenCatchTrace allRes CbArg.empty beh).1

/-- Callback invocations of `touch` (lines 212-232): read, then on the found
branch return `this.set(sid, touched, fn)` whose promise the outer
`.catch(fn)` observes. -/
def touchTrace (gres : Except Err (Option Record)) (sres : Except Err Unit)
    (beh : CbBeh) : List CbArg :=
  match gres with
  | Except.error e => [CbArg.err e]
  | Except.ok none =>
    match beh CbArg.empty with
    | none => [CbArg.empty]
    | some e => [CbArg.empty, CbArg.err e]
  | Except.ok (some _) =>
    match thenCatchTrace sres CbArg.empty beh with
    | (inv, none) => inv
    | (inv, some e) => inv ++ [CbArg.err e]

/-! ## Helper lemmas about the backend model -/

theorem lookup_deleteDoc (st : Store) (k k₁ : String) :
    lookupStore (deleteDoc st k) k₁ = if k₁ = k then none else lookupStore st k₁ := by
  induction st with
  | nil => simp [deleteDoc, lookupStore]
  | cons hd tl ih =>
    obtain ⟨k₀, r⟩ := hd
    by_cases hk : k₀ = k
    · rw [show deleteDoc ((k₀, r) :: tl) k = deleteDoc tl k by simp [deleteDoc, hk]]
      rw [ih]
      by_cases hk₁ : k₁ = k
      · simp [hk₁]
      · have hne : ¬ (k₀ = k₁) := by rw [hk]; exact fun h => hk₁ h.symm
        simp [lookupStore, hne, hk₁]
    · rw [show deleteDoc ((k₀, r) :: tl) k = (k₀, r) :: deleteDoc tl k by
        simp [deleteDoc, hk]]
      by_cases hh : k₀ = k₁
      · have hne : ¬ (k₁ = k) := fun h => hk (hh.trans h)
        simp [lookupStore, hh, hne]
      · simp [lookupStore, hh, ih]

theorem lookup_setDoc (st : Store) (k : String) (r : Record) (k₁ : String) :
    lookupStore (setDoc st k r) k₁ = if k₁ = k then some r else lookupStore st k₁ := by
  by_cases h : k₁ = k
  · subst h
    simp [setDoc, lookupStore]
  · have hne : ¬ (k = k₁) := fun hh => h hh.symm
    simp [setDoc, lookupStore, hne, lookup_deleteDoc, h]

theorem lookup_foldl_deleteDoc (ks : List String) (st : Store) (k : String) :
    lookupStore (List.foldl deleteDoc st ks) k
      = if k ∈ ks then none else lookupStore st k := by
  induction ks generalizing st with
  | nil => simp
  | cons k₀ ks ih =>
    rw [List.foldl_cons, ih]
    by_cases h : k ∈ ks
    · simp [h]
    · rw [lookup_deleteDoc]
      by_cases h₀ : k = k₀ <;> simp [h₀, List.mem_cons, h]

theorem mem_of_lookup_eq_some (st : Store) (k : String) (r : Record)
    (h : lookupStore st k = some r) : (k, r) ∈ st := by
  induction st with
  | nil => simp [lookupStore] at h
  | cons hd tl ih =>
    obtain ⟨k₀, r₀⟩ := hd
    by_cases hk : k₀ = k
    · subst hk
      simp [lookupStore] at h
      subst h
      exact List.mem_cons_self _ _
    · simp [lookupStore, hk] at h
      exact List.mem_cons_of_mem _ (ih h)

theorem lookup_eq_of_mem_nodup (st : Store) (k : String) (r : Record)
    (hnd : (List.map Prod.fst st).Nodup) (hm : (k, r) ∈ st) :
    lookupStore st k = some r := by
  induction st with
  | nil => cases hm
  | cons hd tl ih =>
    obtain ⟨k₀, r₀⟩ := hd
    rw [List.map_cons, List.nodup_cons] at hnd
    rcases List.mem_cons.mp hm with h | h
    · obtain ⟨hk, hr⟩ := Prod.mk.injEq .. ▸ h
      subst hk
      subst hr
      simp [lookupStore]
    · have hk : ¬ (k₀ = k) := by
        intro he
        exact hnd.1 (he ▸ List.mem_map.mpr ⟨(k, r), h, rfl⟩)
      simp [lookupStore, hk]
      exact ih hnd.2 h

theorem mem_reapQuery_iff (st : Store) (now : Int) (k : String) :
    k ∈ reapQuery st now ↔ ∃ r, (k, r) ∈ st ∧ r.expires < now := by
  simp only [reapQuery, List.mem_map, List.mem_filter, decide_eq_true_eq]
  constructor
  · rintro ⟨⟨k₂, r⟩, ⟨hm, hlt⟩, rfl⟩
    exact ⟨r, hm, hlt⟩
  · rintro ⟨r, hm, hlt⟩
    exact ⟨(k, r), ⟨hm, hlt⟩, rfl⟩

/-! ## Helper lemmas about the normalizer and expiry -/

theorem forbiddenChar_underscore : forbiddenChar '_' = false := by
  decide

theorem cleanRef_idem (s : String) : cleanRef (cleanRef s) = cleanRef s := by
  unfold cleanRef
  congr 1
  rw [List.map_map]
  apply List.map_congr_left
  intro c _
  by_cases h : forbiddenChar c = true <;>
    simp [h, forbiddenChar_underscore]

theorem computeExpires_eq (now : Int) (s : Sess) :
    computeExpires now s = now + effectiveLifetime s := by
  obtain ⟨co, rest⟩ := s
  cases co with
  | none => rfl
  | some c =>
    cases c with
    | mk ma => cases ma <;> rfl

theorem lookup_set_self (st : Store) (now : Int) (sid : String) (p : Sess) :
    lookupStore (FirestoreStore.set st now sid p).1 (cleanRef sid)
      = some { expires := computeExpires now p, session := p, type := "connect-session" } := by
  show lookupStore (setDoc st (cleanRef sid) _) (cleanRef sid) = _
  rw [lookup_setDoc, if_pos rfl]

theorem thenCatchTrace_neverThrows (res : Except Err Unit) (arg : CbArg) :
    thenCatchTrace res arg neverThrows
      = match res with
        | Except.ok _ => ([arg], none)
        | Except.error e => ([CbArg.err e], none) := by
  cases res <;> rfl

/-! ## Claim theorems -/

/-- C7: the key normalizer replaces each occurrence of `. $ # [ ] /` with
`_` and leaves every other character unchanged: the output contains none of
the six forbidden characters, has the same length as the input, and agrees
with the input position by position under the 1:1 replacement; as a total
Lean function it is deterministic and never fails. -/
theorem c7_cleanRef_spec (s : String) :
    (cleanRef s).length = s.length
    ∧ List.all (cleanRef s).data (fun c => !(forbiddenChar c)) = true
    ∧ ∀ i : Nat, (cleanRef s).data[i]?
        = Option.map (fun c => if forbiddenChar c then '_' else c) s.data[i]? := by
  obtain ⟨l⟩ := s
  refine ⟨?_, ?_, ?_⟩
  · simp [cleanRef, String.length]
  · simp only [cleanRef, List.all_eq_true]
    intro c hc
    obtain ⟨c₀, _, rfl⟩ := List.mem_map.mp hc
    by_cases h : forbiddenChar c₀ = true <;>
      simp [h, forbiddenChar_underscore]
  · intro i
    simp [cleanRef, List.getElem?_map]

/-- C3: `set sid payload` persists under the normalized key exactly the
record `{ expires, session := payload, type := "connect-session" }`, with
`expires = now + maxAge` when the payload's `cookie.maxAge` is a number `maxAge`
and `expires = now + 21600000` otherwise (cookie absent or `maxAge` of a
non-number type). -/
theorem c3_set_spec (st : Store) (now : Int) (sid : String) (p : Sess) :
    FirestoreStore.set st now sid p
      = (setDoc st (cleanRef sid)
          { expires := match maxAgeHint p with
                       | some n => now + n
                       | none => now + 21600000,
            session := p, type := "connect-session" },
         CbResult.empty)
    ∧ lookupStore (FirestoreStore.set st now sid p).1 (cleanRef sid)
      = some { expires := match maxAgeHint p with
                          | some n => now + n
                          | none => now + 21600000,
               session := p, type := "connect-session" } := by
  have he : computeExpires now p
      = (match maxAgeHint p with
         | some n => now + n
         | none => now + 21600000) := by
    obtain ⟨co, rest⟩ := p
    cases co with
    | none => rfl
    | some c =>
      cases c with
      | mk ma => cases ma <;> rfl
  constructor
  · show (setDoc st (cleanRef sid)
        { expires := computeExpires now p, session := p, type := "connect-session" },
        CbResult.empty) = _
    rw [he]
  · rw [lookup_set_self, he]

/-- C6 counterexample: `set` with a cookie whose `maxAge` is `-1` at
`now = 1000` stores `expires = 999`, which is not strictly greater than
`now` — the "strictly in the future at write time" invariant fails for a
negative declared lifetime, exactly as §4.2 of the spec concedes. -/
theorem c6_counterexample :
    lookupStore
        (FirestoreStore.set [] 1000 "a"
          { cookie := some { maxAge := MaxAge.num (-1) }, rest := [] }).1
        (cleanRef "a")
      = some { expires := 999,
               session := { cookie := some { maxAge := MaxAge.num (-1) }, rest := [] },
               type := "connect-session" }
    ∧ ¬ ((1000 : Int) < 999) := by
  exact ⟨by decide, by decide⟩

/-- C6 (amended): every record written by `set` carries an `expires` field,
equal to `now` plus the effective lifetime, and `expires` is strictly in the
future whenever the effective lifetime (the numeric `cookie.maxAge` if any,
else the 21600000 ms default) is positive; `touch` writes via `set`, so the
same holds for its writes. -/
theorem c6_set_expiry_future (st : Store) (now : Int) (sid : String) (p : Sess)
    (h : 0 < effectiveLifetime p) :
    lookupStore (FirestoreStore.set st now sid p).1 (cleanRef sid)
      = some { expires := now + effectiveLifetime p, session := p,
               type := "connect-session" }
    ∧ now < now + effectiveLifetime p := by
  constructor
  · rw [lookup_set_self, computeExpires_eq]
  · omega

/-- C6 witness: a payload with no lifetime hint has the positive default
lifetime, and the record written at `now = 0` expires strictly later. -/
theorem c6_set_expiry_future_witness :
    lookupStore (FirestoreStore.set [] 0 "a" { cookie := none, rest := [] }).1
        (cleanRef "a")
      = some { expires := 0 + effectiveLifetime { cookie := none, rest := [] },
               session := { cookie := none, rest := [] },
               type := "connect-session" }
    ∧ (0 : Int) < 0 + effectiveLifetime { cookie := none, rest := [] } :=
  c6_set_expiry_future [] 0 "a" { cookie := none, rest := [] } (by decide)

/-- C9: every per-key facade operation normalizes its sid with `cleanRef`
before touching the backend, so each operation applied to `sid` coincides
with the same operation applied to `cleanRef sid`; in particular the raw
sids `"a.b"` and `"a_b"` address one and the same document. -/
theorem c9_normalized_alias (st : Store) (now : Int) (sid : String) (p : Sess) :
    FirestoreStore.get st now sid = FirestoreStore.get st now (cleanRef sid)
    ∧ FirestoreStore.set st now sid p = FirestoreStore.set st now (cleanRef sid) p
    ∧ FirestoreStore.destroy st sid = FirestoreStore.destroy st (cleanRef sid)
    ∧ FirestoreStore.touch st now sid p = FirestoreStore.touch st now (cleanRef sid) p
    ∧ cleanRef "a.b" = cleanRef "a_b" := by
  refine ⟨?_, ?_, ?_, ?_, by decide⟩
  · simp [FirestoreStore.get, FirestoreStore.destroy, cleanRef_idem]
  · simp [FirestoreStore.set, cleanRef_idem]
  · simp [FirestoreStore.destroy, cleanRef_idem]
  · simp [FirestoreStore.touch, FirestoreStore.set, cleanRef_idem]

/-- C1: when `get` finds a stored record with `expires < now`, it performs
`destroy` (removing the record from the backend) and signals the caller with
the same callback value `CbResult.empty` that the not-found path produces —
expiry cleanup and plain absence are observationally identical; a subsequent
`get` on the resulting store takes the genuine not-found path and yields the
same callback value. -/
theorem c1_get_expired (st : Store) (now : Int) (sid : String) (r : Record)
    (hfound : lookupStore st (cleanRef sid) = some r) (hexp : r.expires < now) :
    FirestoreStore.get st now sid = FirestoreStore.destroy st sid
    ∧ lookupStore (FirestoreStore.get st now sid).1 (cleanRef sid) = none
    ∧ (FirestoreStore.get st now sid).2 = CbResult.empty
    ∧ (FirestoreStore.get (FirestoreStore.get st now sid).1 now sid).2
        = CbResult.empty := by
  have hget : FirestoreStore.get st now sid = FirestoreStore.destroy st sid := by
    simp [FirestoreStore.get, hfound, hexp]
  have hdel : lookupStore (FirestoreStore.destroy st sid).1 (cleanRef sid) = none := by
    show lookupStore (deleteDoc st (cleanRef sid)) (cleanRef sid) = none
    rw [lookup_deleteDoc, if_pos rfl]
  refine ⟨hget, ?_, ?_, ?_⟩
  · rw [hget]
    exact hdel
  · rw [hget]
    rfl
  · rw [hget]
    simp [FirestoreStore.get, hdel]

/-- C1 witness: an expired record at key `"a"` is removed by `get` and the
caller observes the empty (not-found) callback value. -/
theorem c1_get_expired_witness :
    lookupStore
        (FirestoreStore.get
          [("a", { expires := 0, session := { cookie := none, rest := [] },
                   type := "connect-session" })] 5 "a").1 (cleanRef "a") = none
    ∧ (FirestoreStore.get
        [("a", { expires := 0, session := { cookie := none, rest := [] },
                 type := "connect-session" })] 5 "a").2 = CbResult.empty :=
  ⟨(c1_get_expired
      [("a", { expires := 0, session := { cookie := none, rest := [] },
               type := "connect-session" })] 5 "a"
      { expires := 0, session := { cookie := none, rest := [] },
        type := "connect-session" } (by decide) (by decide)).2.1,
   (c1_get_expired
      [("a", { expires := 0, session := { cookie := none, rest := [] },
               type := "connect-session" })] 5 "a"
      { expires := 0, session := { cookie := none, rest := [] },
        type := "connect-session" } (by decide) (by decide)).2.2.1⟩

/-- C2: `touch` on an existing record performs exactly `set` with the stored
payload whose cookie sub-field is replaced by the incoming payload's cookie
(`Object.assign` merge), storing that merged payload with `expires`
recomputed from it; on a missing record `touch` reports no session and
writes nothing. -/
theorem c2_touch_spec (st : Store) (now : Int) (sid : String) (p : Sess)
    (r : Record) (hfound : lookupStore st (cleanRef sid) = some r) :
    FirestoreStore.touch st now sid p
      = FirestoreStore.set st now sid (FirestoreStore.mergeTouched r.session p)
    ∧ lookupStore (FirestoreStore.touch st now sid p).1 (cleanRef sid)
      = some { expires := computeExpires now (FirestoreStore.mergeTouched r.session p),
               session := FirestoreStore.mergeTouched r.session p,
               type := "connect-session" }
    ∧ ∀ st₁ : Store, lookupStore st₁ (cleanRef sid) = none →
        FirestoreStore.touch st₁ now sid p = (st₁, CbResult.empty) := by
  have ht : FirestoreStore.touch st now sid p
      = FirestoreStore.set st now sid (FirestoreStore.mergeTouched r.session p) := by
    simp [FirestoreStore.touch, hfound]
  refine ⟨ht, ?_, ?_⟩
  · rw [ht, lookup_set_self]
  · intro st₁ h₁
    simp [FirestoreStore.touch, h₁]

/-- C2 witness: touching a stored payload `{data:1, cookie:{maxAge:1000}}`
with incoming `{cookie:{maxAge:5000}}` rewrites the record to the stored
data with the new cookie, and touching an empty store changes nothing. -/
theorem c2_touch_spec_witness :
    FirestoreStore.touch
        [("a", { expires := 1000,
                 session := { cookie := some { maxAge := MaxAge.num 1000 },
                              rest := [("data", "1")] },
                 type := "connect-session" })] 100 "a"
        { cookie := some { maxAge := MaxAge.num 5000 }, rest := [] }
      = FirestoreStore.set
          [("a", { expires := 1000,
                   session := { cookie := some { maxAge := MaxAge.num 1000 },
                                rest := [("data", "1")] },
                   type := "connect-session" })] 100 "a"
          (FirestoreStore.mergeTouched
            { cookie := some { maxAge := MaxAge.num 1000 }, rest := [("data", "1")] }
            { cookie := some { maxAge := MaxAge.num 5000 }, rest := [] })
    ∧ FirestoreStore.touch [] 100 "a"
        { cookie := some { maxAge := MaxAge.num 5000 }, rest := [] }
      = ([], CbResult.empty) :=
  ⟨(c2_touch_spec
      [("a", { expires := 1000,
               session := { cookie := some { maxAge := MaxAge.num 1000 },
                            rest := [("data", "1")] },
               type := "connect-session" })] 100 "a"
      { cookie := some { maxAge := MaxAge.num 5000 }, rest := [] }
      { expires := 1000,
        session := { cookie := some { maxAge := MaxAge.num 1000 },
                     rest := [("data", "1")] },
        type := "connect-session" } (by decide)).1,
   (c2_touch_spec
      [("a", { expires := 1000,
               session := { cookie := some { maxAge := MaxAge.num 1000 },
                            rest := [("data", "1")] },
               type := "connect-session" })] 100 "a"
      { cookie := some { maxAge := MaxAge.num 5000 }, rest := [] }
      { expires := 1000,
        session := { cookie := some { maxAge := MaxAge.num 1000 },
                     rest := [("data", "1")] },
        type := "connect-session" } (by decide)).2.2 [] (by decide)⟩

/-- C10: `touch` on an existing record with an incoming payload that has no
cookie does not keep the stored cookie: the merged payload's cookie becomes
the (absent) incoming one, and the refreshed `expires` falls back to
`now + 21600000` because the merged payload carries no numeric `maxAge`. -/
theorem c10_touch_without_cookie (st : Store) (now : Int) (sid : String)
    (p : Sess) (r : Record) (hfound : lookupStore st (cleanRef sid) = some r)
    (hc : p.cookie = none) :
    lookupStore (FirestoreStore.touch st now sid p).1 (cleanRef sid)
      = some { expires := now + 21600000,
               session := { cookie := none, rest := r.session.rest },
               type := "connect-session" } := by
  have ht : FirestoreStore.touch st now sid p
      = FirestoreStore.set st now sid (FirestoreStore.mergeTouched r.session p) := by
    simp [FirestoreStore.touch, hfound]
  have hm : FirestoreStore.mergeTouched r.session p
      = { cookie := none, rest := r.session.rest } := by
    simp [FirestoreStore.mergeTouched, hc]
  rw [ht, lookup_set_self, hm]
  rfl

/-- C10 witness: a stored record with a numeric-`maxAge` cookie, touched with
a cookieless payload, ends up with no cookie and the default expiry. -/
theorem c10_touch_without_cookie_witness :
    lookupStore
        (FirestoreStore.touch
          [("a", { expires := 50,
                   session := { cookie := some { maxAge := MaxAge.num 7 },
                                rest := [("data", "1")] },
                   type := "connect-session" })] 100 "a"
          { cookie := none, rest := [("ignored", "x")] }).1 (cleanRef "a")
      = some { expires := 100 + 21600000,
               session := { cookie := none, rest := [("data", "1")] },
               type := "connect-session" } :=
  c10_touch_without_cookie
    [("a", { expires := 50,
             session := { cookie := some { maxAge := MaxAge.num 7 },
                          rest := [("data", "1")] },
             type := "connect-session" })] 100 "a"
    { cookie := none, rest := [("ignored", "x")] }
    { expires := 50,
      session := { cookie := some { maxAge := MaxAge.num 7 },
                   rest := [("data", "1")] },
      type := "connect-session" } (by decide) rfl

/-- C8: for a payload without a lifetime hint, `set` stores
`expires = now + 21600000`, and a `get` at any time `now₂` before that
default lifetime has elapsed returns the very same payload and leaves the
store unchanged. -/
theorem c8_set_get_roundtrip (st : Store) (now now₂ : Int) (sid : String)
    (p : Sess) (hhint : maxAgeHint p = none)
    (hbefore : now₂ < now + 21600000) :
    lookupStore (FirestoreStore.set st now sid p).1 (cleanRef sid)
      = some { expires := now + 21600000, session := p, type := "connect-session" }
    ∧ FirestoreStore.get (FirestoreStore.set st now sid p).1 now₂ sid
      = ((FirestoreStore.set st now sid p).1, CbResult.sess p) := by
  have he : computeExpires now p = now + 21600000 := by
    rw [computeExpires_eq]
    unfold effectiveLifetime
    rw [hhint]
    rfl
  have hl : lookupStore (FirestoreStore.set st now sid p).1 (cleanRef sid)
      = some { expires := now + 21600000, session := p, type := "connect-session" } := by
    rw [lookup_set_self, he]
  have hnot : ¬ ((now + 21600000 : Int) < now₂) := by omega
  refine ⟨hl, ?_⟩
  simp [FirestoreStore.get, hl, hnot]

/-- C8 witness: writing `{user:"x"}` (no cookie) at `now = 0` and reading it
back at `now₂ = 5` returns the payload, with `expires = 21600000` stored. -/
theorem c8_set_get_roundtrip_witness :
    lookupStore
        (FirestoreStore.set [] 0 "s" { cookie := none, rest := [("user", "x")] }).1
        (cleanRef "s")
      = some { expires := 0 + 21600000,
               session := { cookie := none, rest := [("user", "x")] },
               type := "connect-session" }
    ∧ FirestoreStore.get
        (FirestoreStore.set [] 0 "s" { cookie := none, rest := [("user", "x")] }).1 5 "s"
      = ((FirestoreStore.set [] 0 "s" { cookie := none, rest := [("user", "x")] }).1,
         CbResult.sess { cookie := none, rest := [("user", "x")] }) :=
  c8_set_get_roundtrip [] 0 5 "s" { cookie := none, rest := [("user", "x")] }
    rfl (by decide)

/-- C4: `reap` removes exactly the records whose `expires` is strictly below
the pass's clock: in a collection (with unique document keys, as in the
backend) holding an expired record A and a live record B, after `reap` the
record A is absent and B is still present with the same payload and the same
`expires`. -/
theorem c4_reap_spec (st : Store) (now : Int) (kA kB : String) (rA rB : Record)
    (hnd : (List.map Prod.fst st).Nodup)
    (hA : lookupStore st kA = some rA) (hAexp : rA.expires < now)
    (hB : lookupStore st kB = some rB) (hBval : ¬ (rB.expires < now)) :
    lookupStore (FirestoreStore.reap st now).1 kA = none
    ∧ lookupStore (FirestoreStore.reap st now).1 kB = some rB := by
  constructor
  · show lookupStore (List.foldl deleteDoc st (reapQuery st now)) kA = none
    rw [lookup_foldl_deleteDoc]
    have hmem : kA ∈ reapQuery st now :=
      (mem_reapQuery_iff st now kA).mpr
        ⟨rA, mem_of_lookup_eq_some st kA rA hA, hAexp⟩
    simp [hmem]
  · show lookupStore (List.foldl deleteDoc st (reapQuery st now)) kB = some rB
    rw [lookup_foldl_deleteDoc]
    have hnotmem : kB ∉ reapQuery st now := by
      intro hmem
      obtain ⟨r, hm, hlt⟩ := (mem_reapQuery_iff st now kB).mp hmem
      have h₂ := lookup_eq_of_mem_nodup st kB r hnd hm
      rw [hB] at h₂
      exact hBval ((Option.some.inj h₂) ▸ hlt)
    simp [hnotmem, hB]

/-- C4 witness: reaping a two-document collection at `now = 100` removes the
record that expired at 50 and leaves the record expiring at 200 untouched. -/
theorem c4_reap_spec_witness :
    lookupStore
        (FirestoreStore.reap
          [("a", { expires := 50, session := { cookie := none, rest := [] },
                   type := "connect-session" }),
           ("b", { expires := 200, session := { cookie := none, rest := [("u", "v")] },
                   type := "connect-session" })] 100).1 "a" = none
    ∧ lookupStore
        (FirestoreStore.reap
          [("a", { expires := 50, session := { cookie := none, rest := [] },
                   type := "connect-session" }),
           ("b", { expires := 200, session := { cookie := none, rest := [("u", "v")] },
                   type := "connect-session" })] 100).1 "b"
      = some { expires := 200, session := { cookie := none, rest := [("u", "v")] },
               type := "connect-session" } :=
  c4_reap_spec
    [("a", { expires := 50, session := { cookie := none, rest := [] },
             type := "connect-session" }),
     ("b", { expires := 200, session := { cookie := none, rest := [("u", "v")] },
             type := "connect-session" })] 100 "a" "b"
    { expires := 50, session := { cookie := none, rest := [] },
      type := "connect-session" }
    { expires := 200, session := { cookie := none, rest := [("u", "v")] },
      type := "connect-session" }
    (by decide) (by decide) (by decide) (by decide) (by decide)

/-- C5 (amended): provided every backend request settles and the completion
callback returns without throwing, each facade operation invokes its
callback exactly once, whatever the backend outcomes are.  (The unamended
claim fails: a callback that throws is re-invoked by the chained rejection
handler, see the counterexample.) -/
theorem c5_callback_once (gres : Except Err (Option Record))
    (dres sres scanRes qres allRes : Except Err Unit) (now : Int) :
    (getTrace gres dres now neverThrows).length = 1
    ∧ (setTrace sres neverThrows).length = 1
    ∧ (destroyTrace dres neverThrows).length = 1
    ∧ (clearTrace scanRes allRes neverThrows).length = 1
    ∧ (reapTrace qres allRes neverThrows).length = 1
    ∧ (touchTrace gres sres neverThrows).length = 1 := by
  refine ⟨?_, ?_, ?_, ?_, ?_, ?_⟩
  · cases gres with
    | error e => rfl
    | ok o =>
      cases o with
      | none => rfl
      | some r =>
        by_cases h : r.expires < now
        · simp only [getTrace, if_pos h, thenCatchTrace_neverThrows]
          cases dres <;> rfl
        · simp only [getTrace, if_neg h]
          rfl
  · cases sres <;> rfl
  · cases dres <;> rfl
  · cases scanRes with
    | error e => rfl
    | ok u => cases allRes <;> rfl
  · cases qres with
    | error e => rfl
    | ok u => cases allRes <;> rfl
  · cases gres with
    | error e => rfl
    | ok o =>
      cases o with
      | none => rfl
      | some r =>
        simp only [touchTrace, thenCatchTrace_neverThrows]
        cases sres <;> rfl

/-- C5 counterexample: in `get`, with the backend succeeding (document
absent) and a completion callback that throws on its first invocation, the
`.then(fn).catch(fn)` wiring invokes the callback a second time with the
thrown value — two completion signals for a single call. -/
theorem c5_counterexample :
    (getTrace (Except.ok none) (Except.ok ()) 0 (fun _ => some "boom")).length
      = 2 := by
  rfl

end ConnectSessionFirestore
